import Mathlib

/-!
Verification of the PodletJS translation pipeline.

This file gives a shallow embedding of the PodletJS sources
(`src/docker-run-parser.js`, `src/container.js`, `src/index.js`) into Lean:
JavaScript strings become `String`, JavaScript
`undefined`/`null` string slots become `Option String`, arrays become lists,
and in-place array mutation (where a claim is about mutation) is made
explicit through a store of allocated arrays.  Fallible JavaScript code
(property access on `undefined`) is embedded with `Except`.
-/

/-- Decidable equality for `Except`, used to evaluate the embedded parser on
concrete inputs. -/
instance {ε α : Type} [DecidableEq ε] [DecidableEq α] : DecidableEq (Except ε α) :=
  fun x y =>
    match x, y with
    | .ok a, .ok b =>
      if h : a = b then .isTrue (h ▸ rfl) else .isFalse (fun hh => h (Except.ok.inj hh))
    | .error a, .error b =>
      if h : a = b then .isTrue (h ▸ rfl) else .isFalse (fun hh => h (Except.error.inj hh))
    | .ok _, .error _ => .isFalse (fun hh => Except.noConfusion hh)
    | .error _, .ok _ => .isFalse (fun hh => Except.noConfusion hh)

namespace PodletJS

/-- Character class of the JavaScript regular-expression `\s` restricted to
the ASCII whitespace characters (space, tab, line feed, carriage return,
vertical tab, form feed), as used by `_tokenizeCommand` and `_escapeArg`. -/
def jsIsSpace (c : Char) : Bool :=
  c = ' ' || c = '\t' || c = '\n' || c = '\r' || c = Char.ofNat 11 || c = Char.ofNat 12

/-- Embedding of `DockerRunParser._tokenizeCommand`'s character loop.  The
state is the current token under construction, the `inQuotes` flag, the
opening quote character and the `escaped` flag; the JavaScript `quoteChar`
string is reset to `''` on closing a quote, which we render as the null
character, the value being irrelevant while `inQuotes` is `false` (as in the
source, where it is only compared when `inQuotes` holds). -/
def tokenizeChars : List Char → List Char → Bool → Char → Bool → List (List Char)
  | [], current, _, _, _ => if current.isEmpty then [] else [current]
  | ch :: rest, current, inQuotes, quoteChar, escaped =>
    if escaped then
      tokenizeChars rest (current ++ [ch]) inQuotes quoteChar false
    else if ch = '\\' then
      tokenizeChars rest current inQuotes quoteChar true
    else if !inQuotes && (ch = Char.ofNat 34 || ch = Char.ofNat 39) then
      tokenizeChars rest current true ch false
    else if inQuotes && ch = quoteChar then
      tokenizeChars rest current false (Char.ofNat 0) false
    else if !inQuotes && jsIsSpace ch then
      if current.isEmpty then tokenizeChars rest current inQuotes quoteChar false
      else current :: tokenizeChars rest [] inQuotes quoteChar false
    else
      tokenizeChars rest (current ++ [ch]) inQuotes quoteChar false

/-- Embedding of `DockerRunParser._tokenizeCommand` on a string input (the
array branch of the source returns its argument unchanged and is embedded at
the call site). -/
def tokenizeCommandString (s : String) : List String :=
  (tokenizeChars s.data [] false (Char.ofNat 0) false).map String.mk

/-- Embedding of the JavaScript `Container` class constructor
(`src/container.js`): every field with its initial value.  String-valued
slots that start as `null` (or can be assigned `undefined`) are
`Option String`; arrays of strings are `List (Option String)` because the
parser can push an out-of-range (`undefined`) token. -/
structure Container where
  image : String := ""
  containerName : Option String := none
  exec : Option String := none
  addCapability : List (Option String) := []
  dropCapability : List (Option String) := []
  addDevice : List (Option String) := []
  mount : List (Option String) := []
  volume : List (Option String) := []
  network : List (Option String) := []
  networkAlias : List (Option String) := []
  publishPort : List (Option String) := []
  exposeHostPort : List (Option String) := []
  ip : Option String := none
  ip6 : Option String := none
  dns : List (Option String) := []
  dnsOption : List (Option String) := []
  dnsSearch : List (Option String) := []
  environment : List (Option String) := []
  environmentFile : List (Option String) := []
  environmentHost : Bool := false
  noNewPrivileges : Bool := false
  securityLabelDisable : Bool := false
  securityLabelFileType : Option String := none
  securityLabelLevel : Option String := none
  securityLabelNested : Bool := false
  securityLabelType : Option String := none
  seccompProfile : Option String := none
  mask : List (Option String) := []
  unmask : Option String := none
  user : Option String := none
  group : Option String := none
  groupAdd : List (Option String) := []
  userNS : Option String := none
  uidMap : List (Option String) := []
  gidMap : List (Option String) := []
  subUidMap : Option String := none
  subGidMap : Option String := none
  readOnly : Bool := false
  readOnlyTmpfs : Bool := true
  runInit : Bool := false
  workingDir : Option String := none
  hostName : Option String := none
  timezone : Option String := none
  shmSize : Option String := none
  tmpfs : List (Option String) := []
  healthCmd : Option String := none
  healthInterval : Option String := none
  healthOnFailure : Option String := none
  healthRetries : Option Int := none
  healthStartPeriod : Option String := none
  healthStartupCmd : Option String := none
  healthStartupInterval : Option String := none
  healthStartupRetries : Option Int := none
  healthStartupSuccess : Option Int := none
  healthStartupTimeout : Option String := none
  healthTimeout : Option String := none
  notify : String := "conmon"
  stopSignal : Option String := none
  stopTimeout : Option Int := none
  pod : Option String := none
  logDriver : Option String := none
  logOpt : List (Option String) := []
  label : List (Option String) := []
  annotation : List (Option String) := []
  pidsLimit : Option Int := none
  ulimit : List (Option String) := []
  sysctl : List (Option String) := []
  autoUpdate : Option String := none
  pull : Option String := none
  secret : List (Option String) := []
  rootfs : Option String := none
  entrypoint : Option String := none
  podmanArgs : Option String := none
  deriving Repr, DecidableEq

/-- A fresh `new Container()`. -/
def Container.new : Container := {}

/-- Embedding of `String.prototype.startsWith` for a literal prefix. -/
def jsStartsWith (s pre : String) : Bool :=
  pre.data.isPrefixOf s.data

/-- Embedding of `String.prototype.includes` for a single character. -/
def jsContains (s : String) (c : Char) : Bool :=
  s.data.contains c

/-- Embedding of `String.prototype.toLowerCase` on ASCII content. -/
def jsToLower (s : String) : String :=
  String.mk (s.data.map Char.toLower)

/-- Embedding of `String.prototype.length` (code units; all inputs of
interest are ASCII). -/
def jsLength (s : String) : Nat :=
  s.data.length

/-- Embedding of `Array.prototype.join` with a separator string. -/
def jsJoin (sep : String) (l : List String) : String :=
  String.mk (List.intercalate sep.data (l.map String.data))

/-- Embedding of `String.prototype.substring` from a start index. -/
def jsSubstringFrom (s : String) (n : Nat) : String :=
  String.mk (s.data.drop n)

/-- Embedding of the JavaScript single-character `String.prototype.split`:
`''.split(s)` is `['']`, separators at the ends produce empty segments. -/
def jsSplit (sep : Char) : List Char → List (List Char)
  | [] => [[]]
  | c :: cs =>
    match jsSplit sep cs with
    | [] => [[]]
    | t :: ts => if c = sep then [] :: t :: ts else (c :: t) :: ts

/-- Embedding of `flag.replace(/^-+/, '')` (also correct when there are no
leading dashes, as in the source where it is applied to any token). -/
def stripDashes (s : String) : String :=
  String.mk (s.data.dropWhile (fun c => c = '-'))

/-- Embedding of `flag.split('=', 1)[0]`: the text before the first `=`. -/
def beforeFirstEq (s : String) : String :=
  String.mk (s.data.takeWhile (fun c => c != '='))

/-- Embedding of `flag.split('=', 2)[1]` for a string containing `=`: the
JavaScript `limit` argument truncates the result array, so this is the text
strictly between the first and the second `=` (or the end of the string). -/
def secondEqField (s : String) : String :=
  String.mk (((s.data.dropWhile (fun c => c != '=')).drop 1).takeWhile (fun c => c != '='))

/-- Embedding of `parseInt` at radix 10: leading whitespace skipped, optional
sign, maximal digit prefix; `none` plays the role of `NaN` (and of the
initial `null`, which no claim distinguishes from `NaN`). -/
def parseIntJs (v : Option String) : Option Int :=
  match v with
  | none => none
  | some s =>
    let l := s.data.dropWhile jsIsSpace
    let p : Int × List Char :=
      match l with
      | c :: rest => if c = '-' then (-1, rest) else if c = '+' then (1, rest) else (1, l)
      | [] => (1, [])
    let ds := p.2.takeWhile Char.isDigit
    if ds.isEmpty then none
    else some (p.1 * ((ds.foldl (fun acc c => acc * 10 + (c.toNat - 48)) (0 : Nat) : Nat) : Int))

/-- The dictionary of common base image names from `_looksLikeImageName`. -/
def commonImages : List String :=
  ["nginx", "ubuntu", "alpine", "node", "python", "java", "redis", "mysql",
   "postgres", "mongo", "httpd", "tomcat", "php", "ruby", "golang", "gcc",
   "openjdk", "busybox"]

/-- Embedding of `DockerRunParser._looksLikeImageName`.  The final regular
expression `^[a-z0-9]+[a-z0-9._-]*$/i` holds exactly when the first character
is alphanumeric and every following character is alphanumeric or `.`/`_`/`-`. -/
def looksLikeImageName (arg : String) : Bool :=
  if commonImages.contains (jsToLower arg) then true
  else if jsContains arg '/' then true
  else if jsContains arg ':' && !jsStartsWith arg ":" then true
  else
    match arg.data with
    | [] => false
    | c :: rest =>
      ((c.isAlpha || c.isDigit) &&
        rest.all (fun d => d.isAlpha || d.isDigit || d = '.' || d = '_' || d = '-')) &&
      (jsContains arg '-' || jsContains arg '_' || jsContains arg '.' || jsLength arg > 6)

/-- The alternatives of the anchored regular expression in
`_looksLikeCommand`. -/
def commandStarts : List String :=
  ["/", "sh", "bash", "ls", "cat", "echo", "python", "node", "npm", "yarn",
   "make", "gcc", "java", "."]

/-- Embedding of `DockerRunParser._looksLikeCommand`. -/
def looksLikeCommand (arg : String) : Bool :=
  commandStarts.any (fun p => jsStartsWith arg p)

/-- Test of `^\d+[kmgtKMGT]?$` (memory/size values like `128m`, `1G`). -/
def isSizeNumber (l : List Char) : Bool :=
  (!l.isEmpty && l.all Char.isDigit) ||
  (match l.getLast? with
   | some c => "kmgtKMGT".data.contains c && !l.dropLast.isEmpty && l.dropLast.all Char.isDigit
   | none => false)

/-- Test of `^\d+(\.\d+)?$` (numeric values like `2`, `1.5`). -/
def isPlainNumber (l : List Char) : Bool :=
  let intPart := l.takeWhile Char.isDigit
  let rest := l.dropWhile Char.isDigit
  !intPart.isEmpty &&
    (rest.isEmpty ||
      (rest.headD ' ' = '.' && !(rest.drop 1).isEmpty && (rest.drop 1).all Char.isDigit))

/-- Test of `^[a-z][a-z0-9]*:` (values with format like `tcp:`, `host:`):
a lowercase letter, a run of lowercase letters and digits, then a colon. -/
def isBareKeyColon (l : List Char) : Bool :=
  match l with
  | [] => false
  | c :: rest =>
    c.isLower && ((rest.dropWhile (fun d => d.isLower || d.isDigit)).headD ' ' = ':')

/-- The first cascade step of `_looksLikeFlagValue` (clear indicators). -/
def quickFlagValue (arg : String) : Bool :=
  jsContains arg '=' || isSizeNumber arg.data || isPlainNumber arg.data ||
    isBareKeyColon arg.data || (jsContains arg ':' && !jsContains arg '/')

/-- Embedding of the look-ahead loop of `_looksLikeFlagValue` together with
its final `return !this._looksLikeImageName(arg)` (reached both when the loop
runs out of tokens and when it hits a command-looking token and breaks). -/
def lookAheadValue (arg : String) : List String → Bool
  | [] => !looksLikeImageName arg
  | l :: ls =>
    if jsStartsWith l "-" then lookAheadValue arg ls
    else if looksLikeImageName l && !looksLikeImageName arg then true
    else if looksLikeCommand l then !looksLikeImageName arg
    else lookAheadValue arg ls

/-- Embedding of `DockerRunParser._looksLikeFlagValue`. -/
def looksLikeFlagValue (arg : String) (args : List String) (argIndex : Nat) : Bool :=
  quickFlagValue arg || lookAheadValue arg (args.drop (argIndex + 1))

/-- Characters of the class `[\s"'`$\\|&;()<>]` in `_escapeArg` (the quote
characters and the backtick are written by code point). -/
def escapeSpecial (c : Char) : Bool :=
  jsIsSpace c || c = Char.ofNat 34 || c = Char.ofNat 39 || c = Char.ofNat 96 ||
    c = '$' || c = '\\' || c = '|' || c = '&' || c = ';' || c = '(' ||
    c = ')' || c = '<' || c = '>'

/-- Embedding of `DockerRunParser._escapeArg`.  A non-string argument is
converted with `String(arg)`; the only non-string that reaches this function
is `undefined` (an out-of-range token), which prints as `undefined`. -/
def escapeArg (v : Option String) : String :=
  let a := match v with
    | some s => s
    | none => "undefined"
  if a.data.any escapeSpecial then
    String.mk (Char.ofNat 34 ::
      ((a.data.flatMap fun c =>
          if c = Char.ofNat 34 || c = '\\' then ['\\', c] else [c]) ++ [Char.ofNat 34]))
  else a

/-- The shared `let args = container.podmanArgs || ''; if (args) args += ' '`
prefix used by `_handleUnknownFlag` and `_addToPodmanArgs`. -/
def podmanArgsBase (c : Container) : String :=
  let pa := c.podmanArgs.getD ""
  if pa = "" then pa else pa ++ " "

/-- Embedding of `DockerRunParser._addToPodmanArgs`; the outer `Option` of
`value` distinguishes the omitted (`null`) default from a passed token. -/
def addToPodmanArgs (c : Container) (flag : String) (value : Option (Option String)) :
    Container :=
  let base := podmanArgsBase c ++ flag
  match value with
  | none => { c with podmanArgs := some base }
  | some v => { c with podmanArgs := some (base ++ " " ++ escapeArg v) }

/-- Embedding of `DockerRunParser._handleUnknownFlag`, returning the
`nextIndex` of the source paired with the updated container. -/
def handleUnknownFlag (flag : String) (args : List String) (startIndex : Nat)
    (c : Container) : Nat × Container :=
  let pa := podmanArgsBase c ++ flag
  let nextIndex := startIndex + 1
  if jsContains flag '=' then
    (nextIndex, { c with podmanArgs := some pa })
  else
    match args[nextIndex]? with
    | some nextArg =>
      if !jsStartsWith nextArg "-" && looksLikeFlagValue nextArg args nextIndex then
        (nextIndex + 1, { c with podmanArgs := some (pa ++ " " ++ escapeArg (some nextArg)) })
      else (nextIndex, { c with podmanArgs := some pa })
    | none => (nextIndex, { c with podmanArgs := some pa })

/-- Modelled from the spec: `Device.parse`/`toString` live in `types.js`,
which is absent from the sources.  The spec lists `device` among the known
flag groups mapping the following token onto the model and states that the
CLI parser never raises, so the device spec is carried over as given. -/
def deviceToString (v : Option String) : Option String := v

/-- Handler of the `name` key. -/
def nameHandler (args : List String) (i : Nat) (c : Container) : Nat × Container :=
  (i + 2, { c with containerName := args[i + 1]? })

/-- Handler created by `_createPortHandler` (`p`/`publish`). -/
def portHandler (args : List String) (i : Nat) (c : Container) : Nat × Container :=
  (i + 2, { c with publishPort := c.publishPort ++ [args[i + 1]?] })

/-- Handler created by `_createVolumeHandler` (`v`/`volume`). -/
def volumeHandler (args : List String) (i : Nat) (c : Container) : Nat × Container :=
  (i + 2, { c with volume := c.volume ++ [args[i + 1]?] })

/-- Handler created by `_createEnvHandler` (`e`/`env`/`environment`). -/
def envHandler (args : List String) (i : Nat) (c : Container) : Nat × Container :=
  (i + 2, { c with environment := c.environment ++ [args[i + 1]?] })

/-- Handler of the `env-file` key. -/
def envFileHandler (args : List String) (i : Nat) (c : Container) : Nat × Container :=
  (i + 2, { c with environmentFile := c.environmentFile ++ [args[i + 1]?] })

/-- Handler created by `_createLabelHandler` (`l`/`label`). -/
def labelHandler (args : List String) (i : Nat) (c : Container) : Nat × Container :=
  (i + 2, { c with label := c.label ++ [args[i + 1]?] })

/-- Handler of the `network` key. -/
def networkHandler (args : List String) (i : Nat) (c : Container) : Nat × Container :=
  (i + 2, { c with network := c.network ++ [args[i + 1]?] })

/-- Handler of the `w`/`workdir` keys. -/
def workdirHandler (args : List String) (i : Nat) (c : Container) : Nat × Container :=
  (i + 2, { c with workingDir := args[i + 1]? })

/-- Handler created by `_createUserHandler` (`u`/`user`): it calls
`userSpec.includes(':')` and therefore raises a `TypeError` (embedded as
`Except.error ()`) when `args[i + 1]` is absent. -/
def userHandler (args : List String) (i : Nat) (c : Container) :
    Except Unit (Nat × Container) :=
  match args[i + 1]? with
  | none => .error ()
  | some userSpec =>
    if jsContains userSpec ':' then
      let parts := jsSplit ':' userSpec.data
      .ok (i + 2, { c with
        user := some (String.mk (parts.getD 0 [])),
        group := (parts[1]?).map String.mk })
    else .ok (i + 2, { c with user := some userSpec })

/-- Handler of the `h`/`hostname` keys. -/
def hostnameHandler (args : List String) (i : Nat) (c : Container) : Nat × Container :=
  (i + 2, { c with hostName := args[i + 1]? })

/-- Handler of the `entrypoint` key. -/
def entrypointHandler (args : List String) (i : Nat) (c : Container) : Nat × Container :=
  (i + 2, { c with entrypoint := args[i + 1]? })

/-- Handler of the `device` key. -/
def deviceHandler (args : List String) (i : Nat) (c : Container) : Nat × Container :=
  (i + 2, { c with addDevice := c.addDevice ++ [deviceToString args[i + 1]?] })

/-- Handler of the `cap-add` key. -/
def capAddHandler (args : List String) (i : Nat) (c : Container) : Nat × Container :=
  (i + 2, { c with addCapability := c.addCapability ++ [args[i + 1]?] })

/-- Handler of the `cap-drop` key. -/
def capDropHandler (args : List String) (i : Nat) (c : Container) : Nat × Container :=
  (i + 2, { c with dropCapability := c.dropCapability ++ [args[i + 1]?] })

/-- Handler of the `dns` key. -/
def dnsHandler (args : List String) (i : Nat) (c : Container) : Nat × Container :=
  (i + 2, { c with dns := c.dns ++ [args[i + 1]?] })

/-- Handler of the `security-opt` key: it calls `opt.startsWith` and
therefore raises a `TypeError` when `args[i + 1]` is absent. -/
def securityOptHandler (args : List String) (i : Nat) (c : Container) :
    Except Unit (Nat × Container) :=
  match args[i + 1]? with
  | none => .error ()
  | some opt =>
    if opt = "no-new-privileges:true" then .ok (i + 2, { c with noNewPrivileges := true })
    else if jsStartsWith opt "label=disable" then
      .ok (i + 2, { c with securityLabelDisable := true })
    else if jsStartsWith opt "seccomp=" then
      .ok (i + 2, { c with seccompProfile := some (jsSubstringFrom opt 8) })
    else .ok (i + 2, addToPodmanArgs c "--security-opt" (some (some opt)))

/-- Handler of the `read-only` key. -/
def readOnlyHandler (i : Nat) (c : Container) : Nat × Container :=
  (i + 1, { c with readOnly := true })

/-- Handlers of the passthrough boolean keys `t`/`tty`/`i`/`interactive`,
which differ only in the literal they append. -/
def passthroughBoolHandler (flagLit : String) (i : Nat) (c : Container) : Nat × Container :=
  (i + 1, addToPodmanArgs c flagLit none)

/-- Handlers of the ignored one-token keys `d`/`detach`/`rm`. -/
def ignoredFlagHandler (i : Nat) (c : Container) : Nat × Container := (i + 1, c)

/-- Handler of the `restart` key (recognized, value skipped, no mutation). -/
def restartFlagHandler (i : Nat) (c : Container) : Nat × Container := (i + 2, c)

/-- Handlers of the `m`/`memory`/`cpus` keys, which differ only in the
literal passed through. -/
def passthroughValueHandler (flagLit : String) (args : List String) (i : Nat)
    (c : Container) : Nat × Container :=
  (i + 2, addToPodmanArgs c flagLit (some args[i + 1]?))

/-- Handler of the `pull` key. -/
def pullHandler (args : List String) (i : Nat) (c : Container) : Nat × Container :=
  (i + 2, { c with pull := args[i + 1]? })

/-- Handler of the `stop-signal` key. -/
def stopSignalHandler (args : List String) (i : Nat) (c : Container) : Nat × Container :=
  (i + 2, { c with stopSignal := args[i + 1]? })

/-- Handler of the `stop-timeout` key. -/
def stopTimeoutHandler (args : List String) (i : Nat) (c : Container) : Nat × Container :=
  (i + 2, { c with stopTimeout := parseIntJs args[i + 1]? })

/-- Handler of the `health-cmd` key. -/
def healthCmdHandler (args : List String) (i : Nat) (c : Container) : Nat × Container :=
  (i + 2, { c with healthCmd := args[i + 1]? })

/-- Handler of the `tmpfs` key. -/
def tmpfsHandler (args : List String) (i : Nat) (c : Container) : Nat × Container :=
  (i + 2, { c with tmpfs := c.tmpfs ++ [args[i + 1]?] })

/-- Handler of the `init` key. -/
def initHandler (i : Nat) (c : Container) : Nat × Container :=
  (i + 1, { c with runInit := true })

/-- The type of a dispatch-table handler: it receives the token list, the
cursor and the container and reports the source's `nextIndex` with the
mutated container; `Except` carries a possible JavaScript `TypeError`. -/
def Handler : Type :=
  List String → Nat → Container → Except Unit (Nat × Container)

/-- Lift of an infallible handler body into `Handler`. -/
def okH (f : List String → Nat → Container → Nat × Container) : Handler :=
  fun args i c => .ok (f args i c)

/-- Embedding of the dispatch table built by
`DockerRunParser._initializeFlagMappings`: the association of canonical flag
names with their handlers, in source order. -/
def flagMappings : List (String × Handler) :=
  [("name", okH nameHandler),
   ("p", okH portHandler), ("publish", okH portHandler),
   ("v", okH volumeHandler), ("volume", okH volumeHandler),
   ("e", okH envHandler), ("env", okH envHandler), ("environment", okH envHandler),
   ("env-file", okH envFileHandler),
   ("l", okH labelHandler), ("label", okH labelHandler),
   ("network", okH networkHandler),
   ("w", okH workdirHandler), ("workdir", okH workdirHandler),
   ("u", userHandler), ("user", userHandler),
   ("h", okH hostnameHandler), ("hostname", okH hostnameHandler),
   ("entrypoint", okH entrypointHandler),
   ("device", okH deviceHandler),
   ("cap-add", okH capAddHandler), ("cap-drop", okH capDropHandler),
   ("dns", okH dnsHandler),
   ("security-opt", securityOptHandler),
   ("read-only", okH (fun _ i c => readOnlyHandler i c)),
   ("t", okH (fun _ i c => passthroughBoolHandler "-t" i c)),
   ("tty", okH (fun _ i c => passthroughBoolHandler "--tty" i c)),
   ("i", okH (fun _ i c => passthroughBoolHandler "-i" i c)),
   ("interactive", okH (fun _ i c => passthroughBoolHandler "--interactive" i c)),
   ("d", okH (fun _ i c => ignoredFlagHandler i c)),
   ("detach", okH (fun _ i c => ignoredFlagHandler i c)),
   ("rm", okH (fun _ i c => ignoredFlagHandler i c)),
   ("restart", okH (fun _ i c => restartFlagHandler i c)),
   ("m", okH (passthroughValueHandler "-m")),
   ("memory", okH (passthroughValueHandler "--memory")),
   ("cpus", okH (passthroughValueHandler "--cpus")),
   ("pull", okH pullHandler),
   ("stop-signal", okH stopSignalHandler),
   ("stop-timeout", okH stopTimeoutHandler),
   ("health-cmd", okH healthCmdHandler),
   ("tmpfs", okH tmpfsHandler),
   ("init", okH (fun _ i c => initHandler i c))]

/-- Result of the JavaScript property lookup `this.flagMappings[cleanFlag]`.
The dispatch table is a plain object literal, so the lookup can hit an own
entry (an object carrying a `handler` function), an inherited
`Object.prototype` member such as `toString` (a truthy value, so it passes
the source's `if (!mapping)` test, but its `handler` property is `undefined`
and the call raises a `TypeError`), or nothing (`undefined`). -/
inductive FlagLookup : Type where
  | own (h : Handler)
  | inherited
  | missing

/-- The property names an object literal inherits from `Object.prototype`
(ECMA-262, Annex B legacy accessors included). -/
def objectProtoKeys : List String :=
  ["constructor", "hasOwnProperty", "isPrototypeOf", "propertyIsEnumerable",
   "toLocaleString", "toString", "valueOf", "__defineGetter__",
   "__defineSetter__", "__lookupGetter__", "__lookupSetter__", "__proto__"]

/-- Embedding of the property lookup `this.flagMappings[cleanFlag]`,
prototype chain included: an own key hits its handler entry, a key of
`Object.prototype` hits the inherited member, anything else is `undefined`. -/
def findHandler (name : String) : FlagLookup :=
  match (flagMappings.find? (fun kv => kv.1 = name)).map (fun kv => kv.2) with
  | some h => .own h
  | none => if objectProtoKeys.contains name then .inherited else .missing

/-- Embedding of `DockerRunParser._parseFlag`.  For a known flag with an
embedded value the source builds `modifiedArgs` (the flag part replaces the
token and the value part is spliced in after it) and runs the handler on it,
but the returned `nextIndex` is interpreted by the caller against the
original `args`. -/
def parseFlagStep (flag : String) (args : List String) (i : Nat) (c : Container) :
    Except Unit (Nat × Container) :=
  if jsContains flag '=' then
    let flagPart := beforeFirstEq flag
    let cleanFlag := stripDashes flagPart
    match findHandler cleanFlag with
    | .missing => .ok (handleUnknownFlag flag args i c)
    | .inherited => .error ()
    | .own handler =>
      let valuePart := secondEqField flag
      let modifiedArgs := args.take i ++ flagPart :: valuePart :: args.drop (i + 1)
      handler modifiedArgs i c
  else
    match findHandler (stripDashes flag) with
    | .missing => .ok (handleUnknownFlag flag args i c)
    | .inherited => .error ()
    | .own handler => handler args i c

/-- Embedding of the `while` loop of `DockerRunParser.parse`: at a non-flag
token the image is set, the remaining tokens are joined as the command and
the loop stops; otherwise `_parseFlag` runs and the cursor jumps to its
`nextIndex`.  The loop is written with explicit fuel so that it computes by
structural recursion; `parseLoop` below supplies the fuel
`args.length - i`, which `parseFlagStep_lt` shows is an upper bound on the
number of remaining iterations, so the zero-fuel branch is never reached
from `parseLoop`. -/
def parseLoopF : Nat → List String → Nat → Container → Except Unit Container
  | 0, _, _, c => .ok c
  | fuel + 1, args, i, c =>
    if h : i < args.length then
      let arg := args[i]
      if jsStartsWith arg "-" then
        match parseFlagStep arg args i c with
        | .error e => .error e
        | .ok r => parseLoopF fuel args r.1 r.2
      else
        let c1 := { c with image := arg }
        if i + 1 < args.length then
          .ok { c1 with exec := some (jsJoin " " (args.drop (i + 1))) }
        else .ok c1
    else .ok c

/-- The `while` loop entered at cursor `i`. -/
def parseLoop (args : List String) (i : Nat) (c : Container) : Except Unit Container :=
  parseLoopF (args.length - i) args i c

/-- Embedding of `DockerRunParser.parse` on an already-tokenized argument
list: the optional `docker`/`podman` and `run` prefixes are skipped, then
the loop runs on a fresh container. -/
def parseArgs (args : List String) : Except Unit Container :=
  let i1 := if args[0]? = some "docker" || args[0]? = some "podman" then 1 else 0
  let i2 := if args[i1]? = some "run" then i1 + 1 else i1
  parseLoop args i2 Container.new

/-- Embedding of `_tokenizeCommand` as called by `parse`: a string is
tokenized, a pre-split array is returned unchanged. -/
def tokensOf : String ⊕ List String → List String
  | .inl s => tokenizeCommandString s
  | .inr l => l

/-- Embedding of `DockerRunParser.parse` on either accepted input shape. -/
def parse (command : String ⊕ List String) : Except Unit Container :=
  parseArgs (tokensOf command)

/-- Embedding of the name derivation in `Container.getDefaultName`
(`src/container.js`): last `/`-separated segment of the image, with the text
from the first `:` on removed. -/
def deriveNameFromImage (img : String) : String :=
  let imageParts := jsSplit '/' img.data
  let imageName := imageParts.getLastD []
  String.mk ((jsSplit ':' imageName).headD [])

/-- Embedding of `Container.getDefaultName`: a truthy `containerName` wins,
otherwise the name is derived from the image. -/
def getDefaultName (c : Container) : String :=
  match c.containerName with
  | some n => if n = "" then deriveNameFromImage c.image else n
  | none => deriveNameFromImage c.image

/-- Embedding of `String.prototype.endsWith` for a literal suffix. -/
def jsEndsWith (s sfx : String) : Bool :=
  sfx.data.isSuffixOf s.data

/-- Numeric value of a digit run (used by the modelled port check). -/
def digitsToNat (l : List Char) : Nat :=
  l.foldl (fun a c => a * 10 + (c.toNat - 48)) 0

/-- A digit run denoting a port in 1–65535. -/
def portInRange (l : List Char) : Bool :=
  !l.isEmpty && l.all Char.isDigit && decide (1 ≤ digitsToNat l) &&
    decide (digitsToNat l ≤ 65535)

/-- Modelled from the spec: the port-spec check inside
`ContainerUtils.validateContainer` (`types.js` is absent from the sources).
Per the spec, a port spec is `host:container` or a bare container port, with
an optional trailing `/tcp` or `/udp`, and each part must be numeric and
within 1–65535; an `undefined` entry is never valid. -/
def validPortSpec (p : Option String) : Bool :=
  match p with
  | none => false
  | some s =>
    let core :=
      if jsEndsWith s "/tcp" || jsEndsWith s "/udp" then
        String.mk (s.data.take (s.data.length - 4))
      else s
    match jsSplit ':' core.data with
    | [cont] => portInRange cont
    | [host, cont] => portInRange host && portInRange cont
    | _ => false

/-- Modelled from the spec: `ContainerUtils.validateContainer` (`types.js` is
absent from the sources).  The spec lists the collected validation errors as
a missing image and invalid port specs; the message texts follow the
repository's own tests (`Image is required`, `Invalid port: <spec>`). -/
def validateContainer (c : Container) : List String :=
  (if c.image = "" then ["Image is required"] else []) ++
    (c.publishPort.filter (fun p => !validPortSpec p)).map
      (fun p => "Invalid port: " ++ p.getD "undefined")

/-- Modelled from the spec: `QuadletGenerator.generateFile`
(`quadlet-generator.js` is absent from the sources).  The spec states the
generator is a pure total function from the validated model to the unit-file
text; only its totality matters for the claims settled here. -/
def generateFileModelled (c : Container) : String :=
  "[Container]\nImage=" ++ c.image ++ "\n"

/-- Embedding of `PodletJS.containerToQuadlet` (`src/index.js`): validate,
throw an aggregate `Error` when any validation error was collected, and
otherwise generate. -/
def containerToQuadlet (c : Container) : Except String String :=
  let errors := validateContainer c
  if errors.length > 0 then
    .error ("Container validation failed: " ++ jsJoin ", " errors)
  else .ok (generateFileModelled c)

/-- A heap of allocated JavaScript arrays of strings, for the claims about
mutation: an array value is an index into the store. -/
abbrev Store := List (List String)

/-- Allocation of a fresh array (returns the extended store and the new
reference). -/
def alloc (σ : Store) (xs : List String) : Store × Nat :=
  (σ ++ [xs], σ.length)

/-- Contents of an array reference. -/
def deref (σ : Store) (r : Nat) : List String :=
  (σ[r]?).getD []

/-- Contents of `x || []` for an optional array field. -/
def derefOpt (σ : Store) (o : Option Nat) : List String :=
  match o with
  | some r => deref σ r
  | none => []

/-- The caller-supplied `Unit` option bag of `composeToQuadlet`: the `after`
and `wants` keys hold array references; `rest` stands for any other keys,
copied verbatim by the object spread. -/
structure UnitBag where
  after : Option Nat := none
  wants : Option Nat := none
  rest : List (String × String) := []
  deriving Repr, DecidableEq

/-- The caller-supplied `Service` option bag: the `restart` key and any other
keys. -/
structure ServiceBag where
  restart : Option String := none
  rest : List (String × String) := []
  deriving Repr, DecidableEq

/-- The `options` argument of `composeToQuadlet`. -/
structure GenOptions where
  unit : Option UnitBag := none
  service : Option ServiceBag := none
  name : Option String := none
  rest : List (String × String) := []
  deriving Repr, DecidableEq

/-- The orchestrator-relevant fields of a compose-parsed container:
`_dependsOn` and `_restart`. -/
structure ComposeService where
  dependsOn : Option (List String) := none
  restart : Option String := none
  deriving Repr, DecidableEq

/-- Number of keys of a `Unit` bag (`Object.keys(unitConfig).length`). -/
def unitKeyCount (ub : UnitBag) : Nat :=
  (if ub.after.isSome then 1 else 0) + (if ub.wants.isSome then 1 else 0) +
    ub.rest.length

/-- Number of keys of a `Service` bag. -/
def serviceKeyCount (sb : ServiceBag) : Nat :=
  (if sb.restart.isSome then 1 else 0) + sb.rest.length

/-- The `restartMap` object literal of `composeToQuadlet`: the key `no` maps
to `undefined`, exactly like an absent key.  The JavaScript object literal
additionally exposes the inherited `Object.prototype` members (e.g.
`toString`) as truthy function values, which a restart string naming one of
them would copy into the bag; that lies outside the four documented restart
values, and this model covers only the string-valued lookups. -/
def restartMap (s : String) : Option String :=
  if s = "no" then none
  else if s = "always" then some "always"
  else if s = "on-failure" then some "on-failure"
  else if s = "unless-stopped" then some "always"
  else none

/-- Embedding of the dependency merge of `composeToQuadlet`
(`src/index.js`, the `container._dependsOn` block): when the dependency list
is present and non-empty, fresh `after` and `wants` arrays are allocated
holding the caller entries followed by `<dep>.service` for each dependency;
otherwise the bag is passed through unchanged. -/
def deriveUnitConfig (σ : Store) (ub : UnitBag) (svc : ComposeService) :
    Store × UnitBag :=
  match svc.dependsOn with
  | some deps =>
    if deps.length > 0 then
      let afterVals := derefOpt σ ub.after ++ deps.map (fun dep => dep ++ ".service")
      let a1 := alloc σ afterVals
      let wantsVals := derefOpt σ ub.wants ++ deps.map (fun dep => dep ++ ".service")
      let a2 := alloc a1.1 wantsVals
      (a2.1, { after := some a1.2, wants := some a2.2, rest := ub.rest })
    else (σ, ub)
  | none => (σ, ub)

/-- Embedding of the restart-policy merge of `composeToQuadlet`
(`src/index.js`, the `container._restart` block): a truthy restart string is
looked up in `restartMap`, and a truthy result is written into a copy of the
service bag. -/
def deriveServiceConfig (sb : ServiceBag) (svc : ComposeService) : ServiceBag :=
  match svc.restart with
  | none => sb
  | some s =>
    if s = "" then sb
    else
      match restartMap s with
      | some r => { sb with restart := some r }
      | none => sb

/-- Embedding of the per-service option assembly of `composeToQuadlet`
(`src/index.js` lines 48–80): derive the unit and service bags and build the
options object passed to `containerToQuadlet` by spreading the caller's
options with the service name and the derived bags (a derived bag with zero
keys falls back to the caller's).  The `containerToQuadlet` call itself only
reads the merged options: the generator is a pure function (per the spec),
so the store is unchanged by it. -/
def mergeServiceOptions (σ : Store) (opts : GenOptions) (svcName : String)
    (svc : ComposeService) : Store × GenOptions :=
  let ub := opts.unit.getD {}
  let d := deriveUnitConfig σ ub svc
  let sb := opts.service.getD {}
  let sb2 := deriveServiceConfig sb svc
  (d.1, { opts with
          name := some svcName
          unit := if unitKeyCount d.2 > 0 then some d.2 else opts.unit
          service := if serviceKeyCount sb2 > 0 then some sb2 else opts.service })

/-- Embedding of the service loop of `composeToQuadlet`: services are
processed in order, each deriving its merged options from the same caller
`options`, threading the store. -/
def composeToQuadletMerge (σ : Store) (opts : GenOptions) :
    List (String × ComposeService) → Store × List (String × GenOptions)
  | [] => (σ, [])
  | (nm, svc) :: rest =>
    let m := mergeServiceOptions σ opts nm svc
    let r := composeToQuadletMerge m.1 opts rest
    (r.1, (nm, m.2) :: r.2)

/-- A token on which the parse loop raises when it is the final token: a
dash-prefixed valueless `u`/`user`/`security-opt` flag (whose handlers call
string methods on the absent following token). -/
def dangerousFinalFlag (t : String) : Bool :=
  jsStartsWith t "-" && !jsContains t '=' &&
    (stripDashes t = "u" || stripDashes t = "user" || stripDashes t = "security-opt")

/-- A dash-prefixed token whose canonical flag name (the part before an
embedded `=`, leading dashes stripped) is an inherited `Object.prototype`
member, e.g. `--toString` or `--valueOf=1`: the dispatch lookup is truthy,
`mapping.handler` is `undefined`, and calling it raises a `TypeError`. -/
def protoFlagToken (t : String) : Bool :=
  jsStartsWith t "-" &&
    (if jsContains t '=' then objectProtoKeys.contains (stripDashes (beforeFirstEq t))
     else objectProtoKeys.contains (stripDashes t))

/-- The tokenizer never emits an empty token: tokens are only pushed under
the source's `if (current)` truthiness guards. -/
theorem tokenizeChars_ne_nil :
    ∀ (cs current : List Char) (inQ : Bool) (qc : Char) (esc : Bool),
      ∀ tok ∈ tokenizeChars cs current inQ qc esc, tok ≠ [] := by
  intro cs
  induction cs with
  | nil =>
    intro current inQ qc esc tok htok
    simp only [tokenizeChars] at htok
    by_cases h : current.isEmpty
    · simp [h] at htok
    · simp [h] at htok
      subst htok
      simpa [List.isEmpty_iff] using h
  | cons ch rest ih =>
    intro current inQ qc esc tok htok
    simp only [tokenizeChars] at htok
    split at htok
    · exact ih _ _ _ _ tok htok
    · split at htok
      · exact ih _ _ _ _ tok htok
      · split at htok
        · exact ih _ _ _ _ tok htok
        · split at htok
          · exact ih _ _ _ _ tok htok
          · split at htok
            · split at htok
              next hemp => exact ih _ _ _ _ tok htok
              next hemp =>
                rcases List.mem_cons.mp htok with h | h
                · subst h
                  simpa [List.isEmpty_iff] using hemp
                · exact ih _ _ _ _ tok h
            · exact ih _ _ _ _ tok htok

/-- The user handler: on success the cursor advances and the image is not
touched. -/
theorem userHandler_okSpec {args : List String} {i : Nat} {c : Container}
    {r : Nat × Container} (h : userHandler args i c = .ok r) :
    i < r.1 ∧ r.2.image = c.image := by
  unfold userHandler at h
  rcases hx : args[i + 1]? with _ | v
  · rw [hx] at h; cases h
  · rw [hx] at h
    dsimp only at h
    split_ifs at h
    all_goals (cases h; exact ⟨by omega, rfl⟩)

/-- The user handler raises only on a missing value token. -/
theorem userHandler_errSpec {args : List String} {i : Nat} {c : Container}
    {e : Unit} (h : userHandler args i c = .error e) : args[i + 1]? = none := by
  unfold userHandler at h
  rcases hx : args[i + 1]? with _ | v
  · rfl
  · rw [hx] at h
    dsimp only at h
    split_ifs at h
    all_goals cases h

/-- The security-opt handler: on success the cursor advances and the image is
not touched. -/
theorem securityOptHandler_okSpec {args : List String} {i : Nat} {c : Container}
    {r : Nat × Container} (h : securityOptHandler args i c = .ok r) :
    i < r.1 ∧ r.2.image = c.image := by
  unfold securityOptHandler at h
  rcases hx : args[i + 1]? with _ | opt
  · rw [hx] at h; cases h
  · rw [hx] at h
    dsimp only at h
    split_ifs at h
    all_goals first
      | (cases h; exact ⟨by omega, rfl⟩)
      | (cases h; exact ⟨by omega, by simp [addToPodmanArgs]⟩)

/-- The security-opt handler raises only on a missing value token. -/
theorem securityOptHandler_errSpec {args : List String} {i : Nat} {c : Container}
    {e : Unit} (h : securityOptHandler args i c = .error e) : args[i + 1]? = none := by
  unfold securityOptHandler at h
  rcases hx : args[i + 1]? with _ | opt
  · rfl
  · rw [hx] at h
    dsimp only at h
    split_ifs at h
    all_goals cases h

/-- Specification of every entry of the dispatch table: a successful handler
advances the cursor and never touches the image, and only the `u`/`user` and
`security-opt` handlers can raise, and only when `args[i + 1]` is absent. -/
theorem flagMappings_spec :
    ∀ kv ∈ flagMappings, ∀ (args : List String) (i : Nat) (c : Container),
      (∀ r, kv.2 args i c = .ok r → i < r.1 ∧ r.2.image = c.image) ∧
      (∀ e, kv.2 args i c = .error e →
        args[i + 1]? = none ∧ (kv.1 = "u" ∨ kv.1 = "user" ∨ kv.1 = "security-opt")) := by
  intro kv hkv args i c
  simp only [flagMappings, List.mem_cons, List.not_mem_nil, or_false] at hkv
  rcases hkv with rfl | rfl | rfl | rfl | rfl | rfl | rfl | rfl | rfl | rfl | rfl | rfl |
    rfl | rfl | rfl | rfl | rfl | rfl | rfl | rfl | rfl | rfl | rfl | rfl | rfl | rfl |
    rfl | rfl | rfl | rfl | rfl | rfl | rfl | rfl | rfl | rfl | rfl | rfl | rfl | rfl |
    rfl | rfl
  all_goals try
    (refine ⟨fun r h => ?_, fun e h => by simp [okH] at h⟩
     cases h
     refine ⟨?_, ?_⟩ <;>
       simp [okH, nameHandler, portHandler, volumeHandler, envHandler,
         envFileHandler, labelHandler, networkHandler, workdirHandler,
         hostnameHandler, entrypointHandler, deviceHandler, capAddHandler,
         capDropHandler, dnsHandler, readOnlyHandler, passthroughBoolHandler,
         ignoredFlagHandler, restartFlagHandler, passthroughValueHandler,
         pullHandler, stopSignalHandler, stopTimeoutHandler, healthCmdHandler,
         tmpfsHandler, initHandler, addToPodmanArgs] <;> try omega)
  · exact ⟨fun r h => userHandler_okSpec h,
      fun e h => ⟨userHandler_errSpec h, Or.inl rfl⟩⟩
  · exact ⟨fun r h => userHandler_okSpec h,
      fun e h => ⟨userHandler_errSpec h, Or.inr (Or.inl rfl)⟩⟩
  · exact ⟨fun r h => securityOptHandler_okSpec h,
      fun e h => ⟨securityOptHandler_errSpec h, Or.inr (Or.inr rfl)⟩⟩

/-- An own-entry lookup comes from a table entry with the looked-up key. -/
theorem findHandler_mem {name : String} {f : Handler} (h : findHandler name = .own f) :
    ∃ kv ∈ flagMappings, kv.1 = name ∧ kv.2 = f := by
  unfold findHandler at h
  rcases hf : flagMappings.find? (fun kv => kv.1 = name) with _ | kv
  · rw [hf] at h
    dsimp only [Option.map] at h
    split at h <;> cases h
  · rw [hf] at h
    have hmem := List.mem_of_find?_eq_some hf
    have hkey := List.find?_some hf
    simp only [decide_eq_true_eq] at hkey
    exact ⟨kv, hmem, hkey, by injection h⟩

/-- An inherited-member lookup names a property of `Object.prototype`. -/
theorem findHandler_inherited {name : String} (h : findHandler name = .inherited) :
    objectProtoKeys.contains name = true := by
  unfold findHandler at h
  rcases hf : (flagMappings.find? (fun kv => kv.1 = name)).map (fun kv => kv.2) with _ | f
  · rw [hf] at h
    by_cases hk : objectProtoKeys.contains name = true
    · exact hk
    · rw [if_neg hk] at h
      cases h
  · rw [hf] at h
    cases h

/-- A dispatched handler that succeeds advances the cursor and preserves the
image. -/
theorem handler_okSpec {name : String} {f : Handler} (hfind : findHandler name = .own f)
    {args : List String} {i : Nat} {c : Container} {r : Nat × Container}
    (h : f args i c = .ok r) : i < r.1 ∧ r.2.image = c.image := by
  obtain ⟨kv, hmem, _, hf⟩ := findHandler_mem hfind
  exact (flagMappings_spec kv hmem args i c).1 r (by rw [hf]; exact h)

/-- A dispatched handler raises only for `u`/`user`/`security-opt` with the
value token absent. -/
theorem handler_errSpec {name : String} {f : Handler} (hfind : findHandler name = .own f)
    {args : List String} {i : Nat} {c : Container} {e : Unit}
    (h : f args i c = .error e) :
    args[i + 1]? = none ∧ (name = "u" ∨ name = "user" ∨ name = "security-opt") := by
  obtain ⟨kv, hmem, hkey, hf⟩ := findHandler_mem hfind
  have hs := (flagMappings_spec kv hmem args i c).2 e (by rw [hf]; exact h)
  rw [hkey] at hs
  exact hs

/-- The unknown-flag policy advances the cursor. -/
theorem handleUnknownFlag_lt (flag : String) (args : List String) (i : Nat)
    (c : Container) : i < (handleUnknownFlag flag args i c).1 := by
  unfold handleUnknownFlag
  dsimp only
  repeat' split
  all_goals omega

/-- `_parseFlag` advances the cursor whenever it returns. -/
theorem parseFlagStep_lt {flag : String} {args : List String} {i : Nat} {c : Container}
    {r : Nat × Container} (h : parseFlagStep flag args i c = .ok r) : i < r.1 := by
  unfold parseFlagStep at h
  split at h
  · dsimp only at h
    rcases hfind : findHandler (stripDashes (beforeFirstEq flag)) with handler | _ | _
    · rw [hfind] at h
      dsimp only at h
      exact (handler_okSpec hfind h).1
    · rw [hfind] at h; cases h
    · rw [hfind] at h; cases h; exact handleUnknownFlag_lt ..
  · rcases hfind : findHandler (stripDashes flag) with handler | _ | _
    · rw [hfind] at h
      dsimp only at h
      exact (handler_okSpec hfind h).1
    · rw [hfind] at h; cases h
    · rw [hfind] at h; cases h; exact handleUnknownFlag_lt ..

/-- A split never produces the empty list. -/
theorem jsSplit_ne_nil (sep : Char) : ∀ l : List Char, jsSplit sep l ≠ [] := by
  intro l
  cases l with
  | nil => simp [jsSplit]
  | cons c cs =>
    simp only [jsSplit]
    rcases h : jsSplit sep cs with _ | ⟨t, ts⟩
    · simp
    · by_cases hc : c = sep <;> simp [hc]

/-- Splitting a separator-free list yields that list as the only segment. -/
theorem jsSplit_no_sep {sep : Char} : ∀ {l : List Char}, sep ∉ l → jsSplit sep l = [l] := by
  intro l
  induction l with
  | nil => intro _; simp [jsSplit]
  | cons c cs ih =>
    intro h
    have hcs : sep ∉ cs := fun hm => h (List.mem_cons_of_mem _ hm)
    have hc : ¬c = sep := fun he => h (he ▸ List.mem_cons_self _ _)
    simp only [jsSplit]
    rw [ih hcs]
    simp [hc]

/-- The default of `getLastD` is irrelevant for a non-empty list. -/
theorem getLastD_irrel {α : Type} {l : List α} (h : l ≠ []) (d d' : α) :
    l.getLastD d = l.getLastD d' := by
  rw [List.getLastD_eq_getLast?, List.getLastD_eq_getLast?]
  rcases hl : l.getLast? with _ | a
  · exact absurd (List.getLast?_eq_none_iff.mp hl) h
  · rfl

/-- A list containing the separator splits into at least two segments. -/
theorem jsSplit_length_two {sep : Char} : ∀ {l : List Char}, sep ∈ l →
    2 ≤ (jsSplit sep l).length := by
  intro l
  induction l with
  | nil => intro h; cases h
  | cons c cs ih =>
    intro h
    rcases hr : jsSplit sep cs with _ | ⟨t, ts⟩
    · exact absurd hr (jsSplit_ne_nil sep cs)
    · simp only [jsSplit]
      rw [hr]
      by_cases hc : c = sep
      · simp [hc]
      · have hcs : sep ∈ cs := by
          rcases List.mem_cons.mp h with h1 | h1
          · exact absurd h1.symm hc
          · exact h1
        have := ih hcs
        rw [hr] at this
        simp [hc] at this ⊢
        omega

/-- Prepending a character to a list that still contains the separator does
not change the last segment. -/
theorem jsSplit_last_cons {sep : Char} (x : Char) {rest : List Char} (h : sep ∈ rest) :
    (jsSplit sep (x :: rest)).getLastD [] = (jsSplit sep rest).getLastD [] := by
  rcases hr : jsSplit sep rest with _ | ⟨t, ts⟩
  · exact absurd hr (jsSplit_ne_nil sep rest)
  · simp only [jsSplit]
    rw [hr]
    by_cases hx : x = sep
    · simp [hx, List.getLastD_cons]
    · have hts : ts ≠ [] := by
        have h2 := jsSplit_length_two h
        rw [hr] at h2
        simp at h2
        intro he
        rw [he] at h2
        simp at h2
      simp only [hx, if_false, List.getLastD_cons]
      exact getLastD_irrel hts (x :: t) t

/-- The last segment of a split is the last segment of the text after a
separator occurrence. -/
theorem jsSplit_last_append {sep : Char} (xs ys : List Char) :
    (jsSplit sep (xs ++ sep :: ys)).getLastD [] = (jsSplit sep ys).getLastD [] := by
  induction xs with
  | nil =>
    rcases hr : jsSplit sep ys with _ | ⟨t, ts⟩
    · exact absurd hr (jsSplit_ne_nil sep ys)
    · simp only [List.nil_append, jsSplit]
      rw [hr]
      simp [List.getLastD_cons]
  | cons x xs ih =>
    have hmem : sep ∈ xs ++ sep :: ys := by simp
    rw [List.cons_append, jsSplit_last_cons x hmem, ih]

/-- One step of the split seen from the head. -/
theorem jsSplit_head_cons {sep : Char} (x : Char) (rest : List Char) :
    (jsSplit sep (x :: rest)).headD [] =
      if x = sep then [] else x :: (jsSplit sep rest).headD [] := by
  rcases hr : jsSplit sep rest with _ | ⟨t, ts⟩
  · exact absurd hr (jsSplit_ne_nil sep rest)
  · simp only [jsSplit]
    rw [hr]
    by_cases hx : x = sep <;> simp [hx]

/-- The first segment of a split is the text before the first separator. -/
theorem jsSplit_head_append {sep : Char} {xs : List Char} (h : sep ∉ xs) (ys : List Char) :
    (jsSplit sep (xs ++ sep :: ys)).headD [] = xs := by
  induction xs with
  | nil =>
    rw [List.nil_append, jsSplit_head_cons]
    simp
  | cons x xs ih =>
    have hx : ¬x = sep := fun he => h (he ▸ List.mem_cons_self _ _)
    rw [List.cons_append, jsSplit_head_cons]
    simp only [hx, if_false]
    rw [ih (fun hm => h (List.mem_cons_of_mem _ hm))]

/-- The unknown-flag policy never touches the image. -/
theorem handleUnknownFlag_image (flag : String) (args : List String) (i : Nat)
    (c : Container) : (handleUnknownFlag flag args i c).2.image = c.image := by
  unfold handleUnknownFlag
  dsimp only
  repeat' split
  all_goals rfl

/-- `_parseFlag` never touches the image on success. -/
theorem parseFlagStep_image {flag : String} {args : List String} {i : Nat}
    {c : Container} {r : Nat × Container} (h : parseFlagStep flag args i c = .ok r) :
    r.2.image = c.image := by
  unfold parseFlagStep at h
  split at h
  · dsimp only at h
    rcases hfind : findHandler (stripDashes (beforeFirstEq flag)) with handler | _ | _
    · rw [hfind] at h
      dsimp only at h
      exact (handler_okSpec hfind h).2
    · rw [hfind] at h; cases h
    · rw [hfind] at h; cases h; exact handleUnknownFlag_image ..
  · rcases hfind : findHandler (stripDashes flag) with handler | _ | _
    · rw [hfind] at h
      dsimp only at h
      exact (handler_okSpec hfind h).2
    · rw [hfind] at h; cases h
    · rw [hfind] at h; cases h; exact handleUnknownFlag_image ..

/-- `_parseFlag` raises only when the canonical flag name hits an inherited
`Object.prototype` member, or for a valueless `-u`/`--user`/`--security-opt`
token with no following token. -/
theorem parseFlagStep_error {flag : String} {args : List String} {i : Nat}
    {c : Container} {e : Unit} (hi : i < args.length)
    (h : parseFlagStep flag args i c = .error e) :
    (jsContains flag '=' = true ∧
      objectProtoKeys.contains (stripDashes (beforeFirstEq flag)) = true) ∨
    (jsContains flag '=' = false ∧
      objectProtoKeys.contains (stripDashes flag) = true) ∨
    (jsContains flag '=' = false ∧ args[i + 1]? = none ∧
      (stripDashes flag = "u" ∨ stripDashes flag = "user" ∨
        stripDashes flag = "security-opt")) := by
  unfold parseFlagStep at h
  split at h
  · rename_i hsplit
    dsimp only at h
    rcases hfind : findHandler (stripDashes (beforeFirstEq flag)) with handler | _ | _
    · rw [hfind] at h
      dsimp only at h
      have hespec := handler_errSpec hfind h
      exfalso
      have hlen : (args.take i).length = i := by
        simp [List.length_take]
        omega
      have hval : (args.take i ++ beforeFirstEq flag :: secondEqField flag ::
          args.drop (i + 1))[i + 1]? = some (secondEqField flag) := by
        rw [List.getElem?_append_right (by omega)]
        simp [hlen]
      exact Option.noConfusion (hval.symm.trans hespec.1)
    · exact Or.inl ⟨hsplit, findHandler_inherited hfind⟩
    · rw [hfind] at h; cases h
  · rename_i hsplit
    have hne : jsContains flag '=' = false := by simpa using hsplit
    rcases hfind : findHandler (stripDashes flag) with handler | _ | _
    · rw [hfind] at h
      have hespec := handler_errSpec hfind h
      exact Or.inr (Or.inr ⟨hne, hespec.1, hespec.2⟩)
    · exact Or.inr (Or.inl ⟨hne, findHandler_inherited hfind⟩)
    · rw [hfind] at h; cases h

/-- Totality of the parse loop under sufficient fuel: when no token names an
inherited `Object.prototype` member as a flag and the final token is not a
valueless `-u`/`--user`/`--security-opt` flag, the loop returns a container,
and a token list of flags only leaves the image untouched. -/
theorem parseLoopF_ok (args : List String)
    (hproto : ∀ t ∈ args, protoFlagToken t = false)
    (hsafe : ∀ t, args.getLast? = some t → dangerousFinalFlag t = false) :
    ∀ (fuel i : Nat) (c : Container), args.length - i ≤ fuel →
      ∃ cc, parseLoopF fuel args i c = .ok cc ∧
        ((∀ t ∈ args, jsStartsWith t "-" = true) → cc.image = c.image) := by
  intro fuel
  induction fuel with
  | zero => intro i c _; exact ⟨c, rfl, fun _ => rfl⟩
  | succ fuel ih =>
    intro i c hle
    simp only [parseLoopF]
    by_cases hi : i < args.length
    · rw [dif_pos hi]
      by_cases hd : jsStartsWith args[i] "-" = true
      · rw [if_pos hd]
        rcases hstep : parseFlagStep args[i] args i c with e | r
        · exfalso
          have hpt := hproto _ (List.getElem_mem hi)
          rcases parseFlagStep_error hi hstep with ⟨heq, hkey⟩ | ⟨hneq, hkey⟩ |
            ⟨hnoeq, hnone, hnames⟩
          · simp [protoFlagToken, hd, heq] at hpt
            exact hpt (by simpa using hkey)
          · simp [protoFlagToken, hd, hneq] at hpt
            exact hpt (by simpa using hkey)
          · have hlast : args.getLast? = some args[i] := by
              have hlen : i + 1 = args.length := by
                have := List.getElem?_eq_none_iff.mp hnone
                omega
              rw [List.getLast?_eq_getElem?, ← hlen]
              simp
            have hdf := hsafe _ hlast
            unfold dangerousFinalFlag at hdf
            rw [hd, hnoeq] at hdf
            rcases hnames with hn | hn | hn <;> rw [hn] at hdf <;> simp at hdf
        · have hlt := parseFlagStep_lt hstep
          obtain ⟨cc, hcc, him⟩ := ih r.1 r.2 (by omega)
          refine ⟨cc, hcc, fun hall => ?_⟩
          rw [him hall]
          exact parseFlagStep_image hstep
      · rw [if_neg hd]
        by_cases hi1 : i + 1 < args.length
        · rw [if_pos hi1]
          exact ⟨_, rfl, fun hall => absurd (hall _ (List.getElem_mem hi)) hd⟩
        · rw [if_neg hi1]
          exact ⟨_, rfl, fun hall => absurd (hall _ (List.getElem_mem hi)) hd⟩
    · rw [dif_neg hi]
      exact ⟨c, rfl, fun _ => rfl⟩

/-- The dependency merge only allocates: the store grows by a suffix. -/
theorem deriveUnitConfig_extends (σ : Store) (ub : UnitBag) (svc : ComposeService) :
    ∃ ex, (deriveUnitConfig σ ub svc).1 = σ ++ ex := by
  unfold deriveUnitConfig
  rcases svc.dependsOn with _ | deps
  · exact ⟨[], by simp⟩
  · dsimp only
    by_cases hd : deps.length > 0
    · rw [if_pos hd]
      refine ⟨[derefOpt σ ub.after ++ deps.map (fun dep => dep ++ ".service"),
               derefOpt σ ub.wants ++ deps.map (fun dep => dep ++ ".service")], ?_⟩
      simp [alloc]
    · rw [if_neg hd]
      exact ⟨[], by simp⟩

/-- The per-service option assembly only allocates. -/
theorem mergeServiceOptions_extends (σ : Store) (opts : GenOptions) (nm : String)
    (svc : ComposeService) : ∃ ex, (mergeServiceOptions σ opts nm svc).1 = σ ++ ex :=
  deriveUnitConfig_extends σ (opts.unit.getD {}) svc

/-- The whole service loop only allocates. -/
theorem composeToQuadletMerge_extends (opts : GenOptions) :
    ∀ (svcs : List (String × ComposeService)) (σ : Store),
      ∃ ex, (composeToQuadletMerge σ opts svcs).1 = σ ++ ex := by
  intro svcs
  induction svcs with
  | nil => exact fun σ => ⟨[], by simp [composeToQuadletMerge]⟩
  | cons hd tl ih =>
    intro σ
    obtain ⟨e1, h1⟩ := mergeServiceOptions_extends σ opts hd.1 hd.2
    obtain ⟨e2, h2⟩ := ih (mergeServiceOptions σ opts hd.1 hd.2).1
    refine ⟨e1 ++ e2, ?_⟩
    simp only [composeToQuadletMerge]
    rw [h2, h1, List.append_assoc]

/-- C1: for a manifest-derived service with a set restart string, the
restart-policy translation into the Service option bag passes `always` and
`on-failure` through unchanged, maps `unless-stopped` to `always`, and for
`no` leaves the caller's bag untouched, so no restart key is introduced (in
particular an empty caller bag stays without a restart key). -/
theorem c1_restart_policy_translation (sb : ServiceBag) :
    (deriveServiceConfig sb { restart := some "always" }).restart = some "always" ∧
    (deriveServiceConfig sb { restart := some "on-failure" }).restart = some "on-failure" ∧
    (deriveServiceConfig sb { restart := some "unless-stopped" }).restart = some "always" ∧
    deriveServiceConfig sb { restart := some "no" } = sb ∧
    (deriveServiceConfig {} { restart := some "no" }).restart = none :=
  ⟨rfl, rfl, rfl, rfl, rfl⟩

/-- C2: for a service with a non-empty dependency list, the merged Unit bag
holds fresh `after` and `wants` arrays whose contents are the caller-supplied
entries followed by `<dep>.service` for each dependency in order, all other
keys being preserved. -/
theorem c2_dependency_merge (σ : Store) (ub : UnitBag) (svc : ComposeService)
    (deps : List String) (hdeps : svc.dependsOn = some deps) (hne : deps ≠ []) :
    ∃ ra rw, (deriveUnitConfig σ ub svc).2.after = some ra ∧
      (deriveUnitConfig σ ub svc).2.wants = some rw ∧
      deref (deriveUnitConfig σ ub svc).1 ra =
        derefOpt σ ub.after ++ deps.map (fun dep => dep ++ ".service") ∧
      deref (deriveUnitConfig σ ub svc).1 rw =
        derefOpt σ ub.wants ++ deps.map (fun dep => dep ++ ".service") ∧
      (deriveUnitConfig σ ub svc).2.rest = ub.rest := by
  have hlen : deps.length > 0 := List.length_pos.mpr hne
  unfold deriveUnitConfig
  rw [hdeps]
  dsimp only
  rw [if_pos hlen]
  dsimp only [alloc]
  refine ⟨σ.length, (σ ++ [derefOpt σ ub.after ++ deps.map (fun dep => dep ++ ".service")]).length,
    rfl, rfl, ?_, ?_, rfl⟩
  · unfold deref
    rw [List.append_assoc]
    rw [List.getElem?_append_right (Nat.le_refl _)]
    simp
  · unfold deref
    rw [List.getElem?_append_right (Nat.le_refl _)]
    simp

/-- C2 witness: a service with `depends_on: [db]` and no caller entries gets
`after = [db.service]` and `wants = [db.service]` in the merged Unit bag. -/
theorem c2_dependency_merge_witness :
    ∃ ra rw,
      (deriveUnitConfig [] {} { dependsOn := some ["db"] }).2.after = some ra ∧
      (deriveUnitConfig [] {} { dependsOn := some ["db"] }).2.wants = some rw ∧
      deref (deriveUnitConfig [] {} { dependsOn := some ["db"] }).1 ra =
        derefOpt [] ({} : UnitBag).after ++ ["db"].map (fun dep => dep ++ ".service") ∧
      deref (deriveUnitConfig [] {} { dependsOn := some ["db"] }).1 rw =
        derefOpt [] ({} : UnitBag).wants ++ ["db"].map (fun dep => dep ++ ".service") ∧
      (deriveUnitConfig [] {} { dependsOn := some ["db"] }).2.rest = ({} : UnitBag).rest :=
  c2_dependency_merge [] {} { dependsOn := some ["db"] } ["db"] rfl (by decide)

/-- C9: the orchestrator never mutates the caller's option bags or the
arrays they reference: after the whole service loop every pre-existing array
is unchanged (the old store is a prefix of the new one, so every old
reference dereferences to its old contents), and the derived dependency
entries live only in freshly allocated arrays (the merged bag's references
point past the old store). -/
theorem c9_orchestrator_no_mutation (σ : Store) (opts : GenOptions)
    (svcs : List (String × ComposeService)) :
    ((composeToQuadletMerge σ opts svcs).1.take σ.length = σ) ∧
    (∀ r, r < σ.length →
      deref (composeToQuadletMerge σ opts svcs).1 r = deref σ r) ∧
    (∀ (ub : UnitBag) (svc : ComposeService) (deps : List String),
      svc.dependsOn = some deps → deps ≠ [] →
      (deriveUnitConfig σ ub svc).2.after = some σ.length ∧
      (deriveUnitConfig σ ub svc).2.wants = some (σ.length + 1)) := by
  obtain ⟨ex, hex⟩ := composeToQuadletMerge_extends opts svcs σ
  refine ⟨?_, ?_, ?_⟩
  · rw [hex]
    exact List.take_left σ ex
  · intro r hr
    rw [hex]
    unfold deref
    rw [List.getElem?_append, if_pos hr]
  · intro ub svc deps h1 h2
    have hlen : deps.length > 0 := List.length_pos.mpr h2
    unfold deriveUnitConfig
    rw [h1]
    dsimp only
    rw [if_pos hlen]
    dsimp only [alloc]
    exact ⟨rfl, by simp⟩

/-- C9 witness: with one pre-existing caller array and one service with a
dependency, the old array is unchanged after the loop and the derived bag
points at a fresh reference. -/
theorem c9_orchestrator_no_mutation_witness :
    deref (composeToQuadletMerge [["keep"]] {}
      [("web", { dependsOn := some ["db"] })]).1 0 = deref [["keep"]] 0 ∧
    (deriveUnitConfig [["keep"]] {} { dependsOn := some ["db"] }).2.after = some 1 := by
  have h := c9_orchestrator_no_mutation [["keep"]] {} [("web", { dependsOn := some ["db"] })]
  exact ⟨h.2.1 0 (by decide), (h.2.2 {} { dependsOn := some ["db"] } ["db"] rfl (by decide)).1⟩

/-- C7: with no explicit container name, the default name is the last
`/`-separated segment of the image with any trailing `:tag` removed, for any
number of path segments (the prefix may itself contain further slashes) and
an optional tag suffix. -/
theorem c7_default_name_derivation (pre nm sfx : List Char) (c : Container)
    (h1 : '/' ∉ nm) (h2 : ':' ∉ nm) (h3 : '/' ∉ sfx)
    (h4 : sfx = [] ∨ ∃ t, sfx = ':' :: t)
    (hc : c.containerName = none)
    (himg : c.image.data = pre ++ '/' :: (nm ++ sfx) ∨ c.image.data = nm ++ sfx) :
    getDefaultName c = String.mk nm := by
  have hns : '/' ∉ nm ++ sfx := by
    intro hm
    rcases List.mem_append.mp hm with hm | hm
    exacts [h1 hm, h3 hm]
  have hlast : (jsSplit '/' c.image.data).getLastD [] = nm ++ sfx := by
    rcases himg with h | h
    · rw [h, jsSplit_last_append, jsSplit_no_sep hns]
      rfl
    · rw [h, jsSplit_no_sep hns]
      rfl
  have hhead : (jsSplit ':' (nm ++ sfx)).headD [] = nm := by
    rcases h4 with rfl | ⟨t, rfl⟩
    · rw [List.append_nil, jsSplit_no_sep h2]
      rfl
    · exact jsSplit_head_append h2 t
  simp only [getDefaultName, hc]
  simp only [deriveNameFromImage]
  rw [hlast, hhead]

/-- C7 witness: `registry.example.com/ns/name:tag` yields the default name
`name`. -/
theorem c7_default_name_derivation_witness :
    getDefaultName { Container.new with image := "registry.example.com/ns/name:tag" } =
      "name" := by
  have h := c7_default_name_derivation ("registry.example.com/ns".data) ("name".data)
    (":tag".data) { Container.new with image := "registry.example.com/ns/name:tag" }
    (by decide) (by decide) (by decide) (Or.inr ⟨"tag".data, by decide⟩) rfl
    (Or.inl (by decide))
  exact h.trans (by decide)

/-- C8: the tokenizer's output never contains an empty token; in particular
an explicitly quoted empty span produces no token and unquoted whitespace
runs produce nothing between words. -/
theorem c8_tokenizer_no_empty_token :
    (∀ s : String, "" ∉ tokenizeCommandString s) ∧
      tokenizeCommandString "a \"\" b" = ["a", "b"] ∧
      tokenizeCommandString "a   b" = ["a", "b"] := by
  refine ⟨?_, by decide, by decide⟩
  intro s hmem
  simp only [tokenizeCommandString, List.mem_map] at hmem
  obtain ⟨tok, htok, heq⟩ := hmem
  have hnil : tok = [] := by
    have hd := congrArg String.data heq
    simpa using hd
  exact tokenizeChars_ne_nil _ _ _ _ _ tok htok hnil

/-- Any two sufficient fuels give the loop the same value, so `parseLoop`'s
choice of `args.length - i` is as good as any larger bound: the fuel is a
proof device, not part of the semantics. -/
theorem parseLoopF_fuel (args : List String) :
    ∀ (f1 f2 i : Nat) (c : Container), args.length - i ≤ f1 → args.length - i ≤ f2 →
      parseLoopF f1 args i c = parseLoopF f2 args i c := by
  intro f1
  induction f1 with
  | zero =>
    intro f2 i c h1 h2
    cases f2 with
    | zero => rfl
    | succ f2 =>
      have hi : ¬i < args.length := by omega
      simp only [parseLoopF]
      rw [dif_neg hi]
  | succ f1 ih =>
    intro f2 i c h1 h2
    cases f2 with
    | zero =>
      have hi : ¬i < args.length := by omega
      simp only [parseLoopF]
      rw [dif_neg hi]
    | succ f2 =>
      simp only [parseLoopF]
      by_cases hi : i < args.length
      · rw [dif_pos hi, dif_pos hi]
        by_cases hd : jsStartsWith args[i] "-" = true
        · rw [if_pos hd, if_pos hd]
          rcases hstep : parseFlagStep args[i] args i c with e | r
          · rfl
          · have := parseFlagStep_lt hstep
            exact ih f2 r.1 r.2 (by omega) (by omega)
        · rw [if_neg hd, if_neg hd]
      · rw [dif_neg hi, dif_neg hi]

/-- C6: the explicit validation step raises exactly when the collected
validation-error list is non-empty, the raised message joins all collected
error strings with a comma separator, and a model whose image is non-empty
and whose port specs all validate passes without error. -/
theorem c6_validation_aggregation (c : Container) :
    ((∃ e, containerToQuadlet c = .error e) ↔ validateContainer c ≠ []) ∧
    (validateContainer c ≠ [] →
      containerToQuadlet c =
        .error ("Container validation failed: " ++ jsJoin ", " (validateContainer c))) ∧
    ((c.image ≠ "" ∧ ∀ p ∈ c.publishPort, validPortSpec p = true) →
      containerToQuadlet c = .ok (generateFileModelled c)) := by
  by_cases h : validateContainer c = []
  · have hok : containerToQuadlet c = .ok (generateFileModelled c) := by
      simp only [containerToQuadlet, h]
      rfl
    refine ⟨⟨?_, ?_⟩, ?_, fun _ => hok⟩
    · rintro ⟨e, he⟩
      rw [hok] at he
      cases he
    · intro hne
      exact absurd h hne
    · intro hne
      exact absurd h hne
  · have hlen : (validateContainer c).length > 0 := List.length_pos.mpr h
    have herr : containerToQuadlet c =
        .error ("Container validation failed: " ++ jsJoin ", " (validateContainer c)) := by
      simp only [containerToQuadlet]
      rw [if_pos hlen]
    refine ⟨⟨fun _ => h, fun _ => ⟨_, herr⟩⟩, fun _ => herr, ?_⟩
    rintro ⟨himg, hports⟩
    exfalso
    apply h
    unfold validateContainer
    rw [if_neg himg, List.nil_append]
    have hfil : c.publishPort.filter (fun p => !validPortSpec p) = [] := by
      rw [List.filter_eq_nil_iff]
      intro p hp
      simp [hports p hp]
    rw [hfil]
    rfl

/-- C6 witness: a model with only an image passes; an empty model raises the
aggregated message. -/
theorem c6_validation_aggregation_witness :
    containerToQuadlet { Container.new with image := "nginx" } =
      .ok (generateFileModelled { Container.new with image := "nginx" }) ∧
    containerToQuadlet Container.new =
      .error ("Container validation failed: " ++
        jsJoin ", " (validateContainer Container.new)) :=
  ⟨(c6_validation_aggregation { Container.new with image := "nginx" }).2.2
      ⟨by decide, by decide⟩,
    (c6_validation_aggregation Container.new).2.1 (by decide)⟩

/-- C10: a dash-prefixed token following an unknown valueless flag is never
consumed as that flag's value: the unknown-flag handler advances past only
the flag itself and appends only the flag to the passthrough field,
regardless of the value-vs-image heuristic. -/
theorem c10_unknown_flag_keeps_dash_token (flag t : String) (args : List String)
    (i : Nat) (c : Container) (h1 : jsContains flag '=' = false)
    (h2 : args[i + 1]? = some t) (h3 : jsStartsWith t "-" = true) :
    (handleUnknownFlag flag args i c).1 = i + 1 ∧
    (handleUnknownFlag flag args i c).2 =
      { c with podmanArgs := some (podmanArgsBase c ++ flag) } := by
  unfold handleUnknownFlag
  dsimp only
  rw [h1]
  simp only [Bool.false_eq_true, if_false]
  rw [h2]
  dsimp only
  rw [h3]
  simp

/-- C10 witness: after the unknown flag `--foo` the token `-p` is left for
the next loop iteration and only `--foo` reaches the passthrough field. -/
theorem c10_unknown_flag_keeps_dash_token_witness :
    (handleUnknownFlag "--foo" ["--foo", "-p"] 0 Container.new).1 = 0 + 1 ∧
    (handleUnknownFlag "--foo" ["--foo", "-p"] 0 Container.new).2 =
      { Container.new with podmanArgs := some (podmanArgsBase Container.new ++ "--foo") } :=
  c10_unknown_flag_keeps_dash_token "--foo" "-p" ["--foo", "-p"] 0 Container.new
    (by decide) (by decide) (by decide)

/-- C5: when the cursor reaches a token that does not start with a dash, the
loop returns at once: that token becomes the image, and the remaining tokens
joined with single spaces become the command override (absent when there are
none); no later token is interpreted as a flag. -/
theorem c5_image_then_command (args : List String) (i : Nat) (c : Container)
    (hi : i < args.length) (hnf : jsStartsWith args[i] "-" = false) :
    parseLoop args i c =
      .ok (if i + 1 < args.length then
            { c with image := args[i], exec := some (jsJoin " " (args.drop (i + 1))) }
          else { c with image := args[i] }) := by
  unfold parseLoop
  obtain ⟨k, hk⟩ : ∃ k, args.length - i = k + 1 := ⟨args.length - i - 1, by omega⟩
  rw [hk]
  simp only [parseLoopF]
  rw [dif_pos hi]
  rw [hnf]
  simp only [Bool.false_eq_true, if_false]
  by_cases hi1 : i + 1 < args.length
  · rw [if_pos hi1, if_pos hi1]
  · rw [if_neg hi1, if_neg hi1]

/-- C5 witness: at a non-flag cursor token the image and the joined command
are produced. -/
theorem c5_image_then_command_witness :
    parseLoop ["nginx", "echo", "hi"] 0 Container.new =
      .ok { Container.new with image := "nginx", exec := some "echo hi" } := by
  have h := c5_image_then_command ["nginx", "echo", "hi"] 0 Container.new
    (by decide) (by decide)
  exact h.trans (by decide)

/-- C3: the code does not dispatch `--flag=value` as the two tokens `--flag`
and the full text after the first `=`.  On `--env=KEY=VAL nginx` the JavaScript
`split('=', 2)` truncates the value to `KEY`, and the handler's `nextIndex`
(meant for the modified token array) skips `nginx` in the original array, so
the environment entry is `KEY` and no image is recorded; the two-token
spelling `--env KEY=VAL nginx` records `KEY=VAL` and the image. -/
theorem c3_embedded_value_truncation :
    parseArgs ["docker", "run", "--env=KEY=VAL", "nginx"] =
      .ok { Container.new with environment := [some "KEY"] } ∧
    parseArgs ["docker", "run", "--env", "KEY=VAL", "nginx"] =
      .ok { Container.new with environment := [some "KEY=VAL"], image := "nginx" } := by
  constructor <;> decide

/-- C4 counterexample: the CLI parse operation does raise: a trailing
valueless `--user` makes the user handler call a string method on an absent
token, and a flag resolving to an inherited `Object.prototype` member makes
the dispatch call `undefined` — both `TypeError`s. -/
theorem c4_parse_raises_counterexample :
    parse (.inr ["docker", "run", "--user"]) = .error () ∧
    parse (.inr ["docker", "run", "--toString", "x", "nginx"]) = .error () := by
  constructor <;> decide

/-- C4 (amended): the CLI parse operation, on a command string or a token
array, returns a model without raising whenever no token is a dash-prefixed
flag whose canonical name is an inherited `Object.prototype` member (such as
`--toString` or `--valueOf`) and the final token is not a dash-prefixed
valueless `u`/`user`/`security-opt` flag; in particular an empty or
flags-only command yields a model whose image is the empty string. -/
theorem c4_parse_total_unless_dangling (command : String ⊕ List String)
    (hproto : ∀ t ∈ tokensOf command, protoFlagToken t = false)
    (hsafe : ∀ t, (tokensOf command).getLast? = some t → dangerousFinalFlag t = false) :
    ∃ c, parse command = .ok c ∧
      ((∀ t ∈ tokensOf command, jsStartsWith t "-" = true) → c.image = "") := by
  unfold parse parseArgs parseLoop
  dsimp only
  obtain ⟨cc, hcc, him⟩ :=
    parseLoopF_ok (tokensOf command) hproto hsafe _ _ Container.new (Nat.le_refl _)
  exact ⟨cc, hcc, fun hall => him hall⟩

/-- C4 witness: a safe command string parses, and a flags-only token array
parses with the image left empty. -/
theorem c4_parse_total_unless_dangling_witness :
    (∃ c, parse (.inl "docker run -p 8080:80 nginx") = .ok c ∧
      ((∀ t ∈ tokensOf (.inl "docker run -p 8080:80 nginx"),
          jsStartsWith t "-" = true) → c.image = "")) ∧
    (∃ c, parse (.inr ["--detach", "--init"]) = .ok c ∧
      ((∀ t ∈ tokensOf (.inr ["--detach", "--init"]),
          jsStartsWith t "-" = true) → c.image = "")) :=
  ⟨c4_parse_total_unless_dangling (.inl "docker run -p 8080:80 nginx")
      (by decide) (by decide),
    c4_parse_total_unless_dangling (.inr ["--detach", "--init"]) (by decide) (by decide)⟩

end PodletJS
